import Mathlib

/-!
# Verification of the valor-real backend (plate lookup / OLX price scraping)

Shallow embedding of the logic-bearing parts of the repository:

* `src/services/olxService.js` — OLX URL construction (`gerarUrlOlx`,
  `normalizarTexto`), price extraction (`extrairPreco`) and price-summary
  reduction (`buscarPrecosOlx`).
* `src/services/apiPlacasService.js` — plate validation (`validarPlaca`)
  and the provider lookup (`consultarPlaca`), including the FIPE
  best-candidate selection.
* `src/controllers/consultaController.js` — the cache-or-fetch orchestration
  (`consultar`) and the error middleware of the server entry file.

Strings are modelled as Lean `String`s (lists of characters); JavaScript
numbers as `ℚ` (all arithmetic performed by the modelled code is exact on
the values of interest); absent/`null` values as `Option`; thrown
exceptions as `Except`.  Network and database effects are passed in as
explicit parameters, so every function is pure and total.
-/

namespace ValorReal

/-! ## Price extractor (`olxService.extrairPreco`)

JS source:
```
const limpo = texto.replace(/[^\d,.-]/g, '');
const match = limpo.match(/(\d{1,3}(?:\.\d{3})*(?:,\d{2})?)/);
if (match) {
  const numero = match[1].replace(/\./g, '').replace(',', '.');
  return parseFloat(numero);
}
const numeros = texto.replace(/\D/g, '');
if (numeros.length >= 4) return parseFloat(numeros);
return null;
```
The regex is unanchored; every quantifier is greedy and everything after
the leading `\d{1,3}` is optional, so the engine never backtracks: the
match starts at the leftmost digit, takes up to three digits, then whole
`.ddd` groups while they fit, then an optional `,dd`.  The functions below
implement exactly that. -/

def digitVal (c : Char) : Nat := c.toNat - '0'.toNat

/-- Greedy `\d{1,n}` : consume up to `n` leading digits. -/
def takeDigits : Nat → List Char → List Char × List Char
  | 0, l => ([], l)
  | _, [] => ([], [])
  | n + 1, c :: l =>
    if c.isDigit then
      let p := takeDigits n l
      (c :: p.1, p.2)
    else ([], c :: l)

/-- Greedy `(?:\.\d{3})*` : consume whole `.ddd` groups while they fit. -/
def takeGroups : List Char → List Char × List Char
  | '.' :: a :: b :: c :: r =>
    if a.isDigit && b.isDigit && c.isDigit then
      let p := takeGroups r
      ('.' :: a :: b :: c :: p.1, p.2)
    else ([], '.' :: a :: b :: c :: r)
  | l => ([], l)

/-- `(?:,\d{2})?` : an optional `,dd` suffix. -/
def takeDecimal : List Char → List Char
  | ',' :: a :: b :: _ => if a.isDigit && b.isDigit then [',', a, b] else []
  | _ => []

/-- The full match of `\d{1,3}(?:\.\d{3})*(?:,\d{2})?` starting at `l`
(whose head must be a digit for a match to exist). -/
def matchFrom (l : List Char) : List Char :=
  let p := takeDigits 3 l
  let q := takeGroups p.2
  p.1 ++ q.1 ++ takeDecimal q.2

/-- Leftmost match of the price regex: the match starts at the first digit. -/
def firstMatch : List Char → Option (List Char)
  | [] => none
  | c :: l => if c.isDigit then some (matchFrom (c :: l)) else firstMatch l

def parseDigits (l : List Char) : Nat :=
  l.foldl (fun n c => 10 * n + digitVal c) 0

/-- `parseFloat` on a string of digits with at most one `.`: the exact value
of the decimal numeral `ip.frac`, i.e. `(ip * 10^k + frac) / 10^k` where `k`
is the number of fractional digits, so modelled in `ℚ`. -/
def parseFloatQ (l : List Char) : ℚ :=
  let ip := l.takeWhile Char.isDigit
  let rest := l.dropWhile Char.isDigit
  if rest.head? = some '.' then
    mkRat ((parseDigits ip * 10 ^ rest.tail.length + parseDigits rest.tail : Nat) : Int)
      (10 ^ rest.tail.length)
  else mkRat ((parseDigits ip : Nat) : Int) 1

/-- `olxService.extrairPreco`.  Returns `none` for "no price found"
(`null` in JS); never fails. -/
def extrairPreco (texto : String) : Option ℚ :=
  if texto = "" then none
  else
    let limpo := texto.data.filter fun c => c.isDigit || c == ',' || c == '.' || c == '-'
    match firstMatch limpo with
    | some m =>
      let numero := (m.filter fun c => !(c == '.')).map fun c => if c == ',' then '.' else c
      some (parseFloatQ numero)
    | none =>
      let numeros := texto.data.filter Char.isDigit
      if 4 ≤ numeros.length then some (parseDigits numeros : ℚ) else none

example : extrairPreco "R$ 50.000,00" = some 50000 := by decide
example : extrairPreco "5000000" = some 500 := by decide
example : extrairPreco "R$ 123" = some 123 := by decide
example : extrairPreco "" = none := by decide

/-! ## URL construction (`olxService.normalizarTexto`, `olxService.gerarUrlOlx`)

`normalizarTexto` chains, in order: `toLowerCase()`, `normalize('NFD')`,
removal of the combining-diacritic block U+0300–U+036F, removal of every
character outside the class `[a-z0-9\s-]`, `trim()`, replacement of each
whitespace run by a single hyphen, collapse of each hyphen run to a single
hyphen, and removal of a leading and a trailing hyphen. -/

/-- JS `\s` / `trim` whitespace, modelled on the characters that occur in
the data: space, tab, LF, CR, vertical tab, form feed, NBSP. -/
def isWS (c : Char) : Bool :=
  c == ' ' || c == '\t' || c == '\n' || c == '\r' ||
  c == '\x0b' || c == '\x0c' || c == ' '

/-- `String.prototype.toLowerCase`, modelled on ASCII letters and the
Latin-1 accented letters (U+00C0–U+00DE except `×`); every other
character is unchanged. -/
def lowerChar (c : Char) : Char :=
  if 'A' ≤ c && c ≤ 'Z' then Char.ofNat (c.toNat + 32)
  else if 0xC0 ≤ c.toNat && c.toNat ≤ 0xDE && c.toNat != 0xD7 then Char.ofNat (c.toNat + 32)
  else c

/-- Unicode NFD decomposition, modelled on the lowercase Latin-1 accented
letters (the only non-ASCII letters this code path meets after
`lowerChar`); every other character is atomic. -/
def nfdChar (c : Char) : List Char :=
  if c == 'à' then ['a', '̀'] else if c == 'á' then ['a', '́']
  else if c == 'â' then ['a', '̂'] else if c == 'ã' then ['a', '̃']
  else if c == 'ä' then ['a', '̈'] else if c == 'å' then ['a', '̊']
  else if c == 'è' then ['e', '̀'] else if c == 'é' then ['e', '́']
  else if c == 'ê' then ['e', '̂'] else if c == 'ë' then ['e', '̈']
  else if c == 'ì' then ['i', '̀'] else if c == 'í' then ['i', '́']
  else if c == 'î' then ['i', '̂'] else if c == 'ï' then ['i', '̈']
  else if c == 'ñ' then ['n', '̃']
  else if c == 'ò' then ['o', '̀'] else if c == 'ó' then ['o', '́']
  else if c == 'ô' then ['o', '̂'] else if c == 'õ' then ['o', '̃']
  else if c == 'ö' then ['o', '̈']
  else if c == 'ù' then ['u', '̀'] else if c == 'ú' then ['u', '́']
  else if c == 'û' then ['u', '̂'] else if c == 'ü' then ['u', '̈']
  else if c == 'ç' then ['c', '̧'] else if c == 'ý' then ['y', '́']
  else [c]

/-- The combining-diacritic block `[̀-ͯ]`. -/
def isCombining (c : Char) : Bool := 0x300 ≤ c.toNat && c.toNat ≤ 0x36f

/-- The character class `[a-z0-9\s-]`. -/
def allowedChar (c : Char) : Bool :=
  ('a' ≤ c && c ≤ 'z') || ('0' ≤ c && c ≤ '9') || isWS c || c == '-'

/-- `String.prototype.trim`. -/
def trimWS (l : List Char) : List Char :=
  ((l.dropWhile isWS).reverse.dropWhile isWS).reverse

/-- `.replace(/X+/g, '-')` for the class `X = p`: each maximal run of
`p`-characters becomes a single `'-'`.  The flag records whether the
previous character was in a run (so the run already emitted its hyphen). -/
def collapseRunsAux (p : Char → Bool) : Bool → List Char → List Char
  | _, [] => []
  | true, c :: l =>
    if p c then collapseRunsAux p true l else c :: collapseRunsAux p false l
  | false, c :: l =>
    if p c then '-' :: collapseRunsAux p true l else c :: collapseRunsAux p false l

def collapseRuns (p : Char → Bool) (l : List Char) : List Char :=
  collapseRunsAux p false l

/-- The `^-` alternative of `.replace(/^-|-$/g, '')`: drop one leading
hyphen. -/
def dropLeadHyphen (l : List Char) : List Char :=
  if l.head? = some '-' then l.tail else l

/-- The `-$` alternative: drop one trailing hyphen. -/
def dropTrailHyphen (l : List Char) : List Char :=
  if l.reverse.head? = some '-' then l.reverse.tail.reverse else l

/-- `.replace(/^-|-$/g, '')`: drop one leading and one trailing hyphen. -/
def dropEdgeHyphens (l : List Char) : List Char :=
  dropTrailHyphen (dropLeadHyphen l)

/-- `olxService.normalizarTexto`. -/
def normalizarTexto (texto : String) : String :=
  if texto = "" then ""
  else
    let s1 := texto.data.map lowerChar
    let s2 := s1.flatMap nfdChar
    let s3 := s2.filter fun c => !(isCombining c)
    let s4 := s3.filter allowedChar
    let s5 := trimWS s4
    let s6 := collapseRuns isWS s5
    let s7 := collapseRuns (fun c => c == '-') s6
    ⟨dropEdgeHyphens s7⟩

/-- `anoModelo.toString().trim().split(/[\s-]/)[0]`: the leading segment of
the trimmed string up to the first whitespace or hyphen. -/
def yearToken (anoModelo : String) : String :=
  ⟨(trimWS anoModelo.data).takeWhile fun c => !(isWS c || c == '-')⟩

/-- The vehicle attributes `gerarUrlOlx` destructures; `none` models an
absent (`undefined`/`null`) field and `some ""` an empty one — both falsy. -/
structure VeiculoDados where
  marca : Option String
  modelo : Option String
  anoModelo : Option String
deriving DecidableEq, Repr

def falsyStr : Option String → Bool
  | none => true
  | some s => s == ""

def olxBase : String :=
  "https://www.olx.com.br/autos-e-pecas/carros-vans-e-utilitarios/"

/-- `olxService.gerarUrlOlx`. -/
def gerarUrlOlx (v : VeiculoDados) : Option String :=
  if falsyStr v.marca || falsyStr v.modelo || falsyStr v.anoModelo then none
  else
    some (olxBase ++ normalizarTexto (v.marca.getD "") ++ "/" ++
      normalizarTexto (v.modelo.getD "") ++ "/" ++ yearToken (v.anoModelo.getD ""))

example :
    gerarUrlOlx ⟨some "Volkswagen Gol", some "1.0", some "2015 Flex"⟩ =
      some "https://www.olx.com.br/autos-e-pecas/carros-vans-e-utilitarios/volkswagen-gol/10/2015" := by
  decide

example : normalizarTexto "Citroën C4" = "citroen-c4" := by decide

/-! ## Price-summary reduction (`olxService.buscarPrecosOlx`)

The network fetch and the cheerio selectors are the only effectful parts;
they are abstracted as a `fetch` parameter that either throws (any
exception in the `try` block — network failure, timeout, parse failure)
or yields the candidate texts each of the three selector tiers would
collect from the fetched page.  Everything after that point is the pure
reduction of the source, modelled verbatim. -/

/-- The texts the three selector tiers read from the page, in document
order: texts of `DS-AdCard-Price` nodes inside `DS-AdCard-Link` cards
(already `.trim()`-ed), texts read from anchors whose `href` contains
`/autos-e-pecas/`, and the texts of all page elements (for the bounded
scan). -/
structure Pagina where
  tier1 : List String
  tier2 : List String
  tier3 : List String

/-- `const preco = this.extrairPreco(t); if (preco) precos.push(preco)` —
the extracted price is kept only when truthy (nonzero). -/
def pushPreco (t : String) : Option ℚ :=
  match extrairPreco t with
  | some p => if p = 0 then none else some p
  | none => none

/-- Tier 1 also guards `if (precoTexto)` before extracting. -/
def precosTier1 (ts : List String) : List ℚ :=
  ts.filterMap fun t => if t = "" then none else pushPreco t

def precosTier2 (ts : List String) : List ℚ :=
  ts.filterMap pushPreco

/-- `texto.includes('R$')`. -/
def containsRS : List Char → Bool
  | [] => false
  | 'R' :: '$' :: _ => true
  | _ :: l => containsRS l

/-- Tier 3: the bounded scan stops after examining 501 elements
(`if (count++ > 500) return false`), considers only texts containing
`R$` of length < 100, and keeps truthy prices strictly between 1000 and
10000000. -/
def precosTier3 (ts : List String) : List ℚ :=
  (ts.take 501).filterMap fun t =>
    if t ≠ "" && containsRS t.data && t.data.length < 100 then
      match extrairPreco t with
      | some p => if p ≠ 0 ∧ 1000 < p ∧ p < 10000000 then some p else none
      | none => none
    else none

/-- `[...new Set(precos)]`: insert left to right, keeping the first
occurrence of each value. -/
def jsSetDedupAux (seen : List ℚ) : List ℚ → List ℚ
  | [] => []
  | p :: l => if p ∈ seen then jsSetDedupAux seen l else p :: jsSetDedupAux (p :: seen) l

def jsSetDedup (l : List ℚ) : List ℚ := jsSetDedupAux [] l

/-- `Math.min(...l)` on a nonempty list (the `[]` case is unreachable at
the call site). -/
def listMin : List ℚ → ℚ
  | [] => 0
  | p :: l => l.foldl min p

/-- `Math.max(...l)` on a nonempty list. -/
def listMax : List ℚ → ℚ
  | [] => 0
  | p :: l => l.foldl max p

/-- `l.reduce((sum, p) => sum + p, 0)`. -/
def somaQ (l : List ℚ) : ℚ := l.foldl (· + ·) 0

/-- Rounding of `Intl.NumberFormat`: the value in cents, rounded half away
from zero (all formatted values here are ≥ 0, where that is
`⌊100·q + 1/2⌋ = (200·num + den) / (2·den)`). -/
def centsOf (q : ℚ) : Int := (200 * q.num + (q.den : Int)) / (2 * (q.den : Int))

/-- Thousands grouping on a reversed digit list: a `.` after every three
digits. -/
def groupRev : List Char → List Char
  | a :: b :: c :: d :: r => a :: b :: c :: '.' :: groupRev (d :: r)
  | l => l

/-- `olxService.formatarPreco`: `Intl.NumberFormat('pt-BR', currency BRL)`,
i.e. `R$ 1.234.567,89` with a non-breaking space after `R$`. -/
def formatarPreco (q : ℚ) : String :=
  let cents := (centsOf q).toNat
  let reais := cents / 100
  let cc := cents % 100
  let intPart := (groupRev (Nat.toDigits 10 reais).reverse).reverse
  ⟨'R' :: '$' :: ' ' :: (intPart ++ ',' :: [Char.ofNat (cc / 10 + 48), Char.ofNat (cc % 10 + 48)])⟩

structure PrecoStats where
  menorPreco : String
  maiorPreco : String
  mediaPreco : String
  quantidadeAnuncios : Nat
  urlOlx : String
deriving DecidableEq, Repr

/-- The deduplicated positive prices obtained from a page. -/
def precosUnicosDe (pg : Pagina) : List ℚ :=
  let precos := precosTier1 pg.tier1
  let precos := if precos.isEmpty then precosTier2 pg.tier2 else precos
  let precos := if precos.isEmpty then precosTier3 pg.tier3 else precos
  (jsSetDedup precos).filter fun p => 0 < p

/-- `olxService.buscarPrecosOlx`.  `fetch` models the HTTP GET together
with the HTML parse; a `.error` is any exception thrown inside the `try`,
which the `catch` turns into `null`. -/
def buscarPrecosOlx (v : VeiculoDados) (fetch : String → Except Unit Pagina) :
    Option PrecoStats :=
  match gerarUrlOlx v with
  | none => none
  | some urlOlx =>
    match fetch urlOlx with
    | .error _ => none
    | .ok pg =>
      let precosUnicos := precosUnicosDe pg
      if precosUnicos.isEmpty then none
      else
        some { menorPreco := formatarPreco (listMin precosUnicos)
               maiorPreco := formatarPreco (listMax precosUnicos)
               mediaPreco := formatarPreco (somaQ precosUnicos / (precosUnicos.length : ℚ))
               quantidadeAnuncios := precosUnicos.length
               urlOlx := urlOlx }

example : formatarPreco (mkRat 50000 1) = "R$ 50.000,00" := by decide
example : formatarPreco (mkRat 12345675 1000) = "R$ 12.345,68" := by decide
example : precosUnicosDe ⟨["R$ 50.000,00", "R$ 30.000", "R$ 50.000,00"], [], []⟩ =
    [50000, 30000] := by decide

/-! ## Plate lookup (`apiPlacasService`) -/

def isUpperAlpha (c : Char) : Bool := 'A' ≤ c && c ≤ 'Z'

/-- `/^[A-Z]{3}[0-9]{4}$/` — the legacy plate format. -/
def formatoAntigo (p : String) : Bool :=
  match p.data with
  | [a, b, c, d, e, f, g] =>
    isUpperAlpha a && isUpperAlpha b && isUpperAlpha c &&
    d.isDigit && e.isDigit && f.isDigit && g.isDigit
  | _ => false

/-- `/^[A-Z]{3}[0-9][A-Z0-9][0-9]{2}$/` — the current (Mercosul) format. -/
def formatoNovo (p : String) : Bool :=
  match p.data with
  | [a, b, c, d, e, f, g] =>
    isUpperAlpha a && isUpperAlpha b && isUpperAlpha c &&
    d.isDigit && (isUpperAlpha e || e.isDigit) && f.isDigit && g.isDigit
  | _ => false

/-- `apiPlacasService.validarPlaca`. -/
def validarPlaca (p : String) : Bool := formatoAntigo p || formatoNovo p

/-- `toUpperCase`, modelled on ASCII letters (plates are ASCII). -/
def upperChar (c : Char) : Char :=
  if 'a' ≤ c && c ≤ 'z' then Char.ofNat (c.toNat - 32) else c

/-- `placa.replace(/\s/g, '').toUpperCase()`. -/
def formatarPlaca (placa : String) : String :=
  ⟨(placa.data.filter fun c => !(isWS c)).map upperChar⟩

/-- One entry of the provider's `fipe.dados` valuation list.  `score` and
`texto_valor` may be absent in the JSON. -/
structure FipeDado where
  score : Option ℚ
  texto_valor : Option String
deriving DecidableEq, Repr, Inhabited

/-- `(d.score || 0)` — the comparator key: an absent score counts as 0. -/
def sortKey (d : FipeDado) : ℚ := d.score.getD 0

/-- `a` may stay before `b` under the comparator
`(b, a) => (b.score||0) - (a.score||0)`. -/
def fipeSortRel (a b : FipeDado) : Prop := sortKey b ≤ sortKey a

instance : DecidableRel fipeSortRel :=
  fun _ _ => inferInstanceAs (Decidable (_ ≤ _))

/-- `data.fipe.dados.sort((a, b) => (b.score||0) - (a.score||0))`:
ECMAScript `Array.prototype.sort` is stable, and a stable sort by a total
preorder has a unique result, modelled here by stable insertion sort. -/
def sortFipe (l : List FipeDado) : List FipeDado := l.insertionSort fipeSortRel

/-- `x || null` on an optional string: an absent or empty string is falsy. -/
def strOrNull (s : Option String) : Option String :=
  match s with
  | some t => if t = "" then none else some t
  | none => none

/-- `melhorFipe.score || null`: an absent or zero score gives `null`. -/
def scoreOrNull (s : Option ℚ) : Option ℚ :=
  match s with
  | some q => if q = 0 then none else some q
  | none => none

/-- The provider JSON fields `consultarPlaca` reads.  `fipeDados` is
`data.fipe && data.fipe.dados`; `none` models an absent field and the
`||` defaults in the code also treat `""` as absent. -/
structure ApiResposta where
  mensagemRetorno : Option String
  fipeDados : Option (List FipeDado)
  placa : Option String
  marca : Option String
  modelo : Option String
  ano : Option String
  anoModelo : Option String
  cor : Option String
  chassi : Option String
  renavam : Option String
  uf : Option String
  municipio : Option String
  situacao : Option String
deriving DecidableEq, Repr

/-- The canonical vehicle record (`veiculoData`) the service returns. -/
structure Veiculo where
  placa : String
  marca : Option String
  modelo : Option String
  ano : Option String
  anoModelo : Option String
  cor : Option String
  chassi : Option String
  renavam : Option String
  uf : Option String
  municipio : Option String
  situacao : Option String
  valorFipe : Option String
  valorFipeScore : Option ℚ
  dadosFipe : Option (List FipeDado)
  mensagemRetorno : Option String
  dadosCompletos : ApiResposta
deriving DecidableEq, Repr

/-- The errors `consultarPlaca` can throw, after its own `catch` block has
classified them. -/
inductive ErroApi where
  | invalidFormat
  | providerRejected (msg : String)
  | providerError (status : Nat) (statusText : String)
  | providerUnreachable
deriving DecidableEq, Repr

/-- What the HTTP GET to the provider can produce: a 2xx JSON body, an
HTTP error response (`error.response`), or a connection/timeout failure
(`error.request`). -/
inductive Provedor where
  | ok (data : ApiResposta)
  | httpError (status : Nat) (statusText : String)
  | networkError

/-- `data.mensagemRetorno && data.mensagemRetorno !== 'Sem erros.'`. -/
def mensagemErro (m : Option String) : Option String :=
  match m with
  | some s => if s ≠ "" ∧ s ≠ "Sem erros." then some s else none
  | none => none

/-- The FIPE-processing block of `consultarPlaca`.  `sort` mutates
`data.fipe.dados` in place, so once the list is nonempty both `dadosFipe`
and the retained raw response hold the sorted array.  Returns the
(possibly mutated) response together with `valorFipe`, `valorFipeScore`
and `dadosFipe`. -/
def processarFipe (data0 : ApiResposta) :
    ApiResposta × Option String × Option ℚ × Option (List FipeDado) :=
  match data0.fipeDados with
  | some (d0 :: ds) =>
    let fipeOrdenado := sortFipe (d0 :: ds)
    let melhorFipe := fipeOrdenado.headI
    ({ data0 with fipeDados := some fipeOrdenado },
      strOrNull melhorFipe.texto_valor, scoreOrNull melhorFipe.score,
      some fipeOrdenado)
  | _ => (data0, none, none, none)

/-- The `veiculoData` object `consultarPlaca` assembles on success. -/
def montarVeiculo (placaFormatada : String) (data0 : ApiResposta) : Veiculo :=
  let proc := processarFipe data0
  { placa := (strOrNull proc.1.placa).getD placaFormatada
    marca := strOrNull proc.1.marca
    modelo := strOrNull proc.1.modelo
    ano := strOrNull proc.1.ano
    anoModelo := strOrNull proc.1.anoModelo
    cor := strOrNull proc.1.cor
    chassi := strOrNull proc.1.chassi
    renavam := strOrNull proc.1.renavam
    uf := strOrNull proc.1.uf
    municipio := strOrNull proc.1.municipio
    situacao := strOrNull proc.1.situacao
    valorFipe := proc.2.1
    valorFipeScore := proc.2.2.1
    dadosFipe := proc.2.2.2
    mensagemRetorno := strOrNull proc.1.mensagemRetorno
    dadosCompletos := proc.1 }

/-- `apiPlacasService.consultarPlaca`.  `provider` models the `axios.get`
call on the provider URL for the formatted plate. -/
def consultarPlaca (placa : String) (provider : String → Provedor) :
    Except ErroApi Veiculo :=
  let placaFormatada := formatarPlaca placa
  if !validarPlaca placaFormatada then .error .invalidFormat
  else
    match provider placaFormatada with
    | .httpError st stx => .error (.providerError st stx)
    | .networkError => .error .providerUnreachable
    | .ok data0 =>
      match mensagemErro data0.mensagemRetorno with
      | some m => .error (.providerRejected m)
      | none => .ok (montarVeiculo placaFormatada data0)

example : validarPlaca "ABC1234" = true := by decide
example : validarPlaca "ABC1D23" = true := by decide
example : validarPlaca "AB1234" = false := by decide
example : validarPlaca "ABCD123" = false := by decide
example : validarPlaca (formatarPlaca "abc-1234") = false := by decide
example : formatarPlaca " abc 1d23 " = "ABC1D23" := by decide

/-! ## Cache-or-fetch orchestration (`consultaController.consultar`) and
the top-level error middleware of the server entry file. -/

/-- The guidance message of `consultarPlaca`'s invalid-format `Error`. -/
def msgFormatoInvalido : String :=
  "Formato de placa inválido. Use o formato AAA0X00 ou AAA9999"

/-- `error.message` for each thrown error. -/
def mensagemDe : ErroApi → String
  | .invalidFormat => msgFormatoInvalido
  | .providerRejected m => m
  | .providerError st stx => "Erro na API Placas: " ++ toString st ++ " - " ++ stx
  | .providerUnreachable => "Erro ao conectar com a API Placas. Tente novamente."

/-- The error middleware: `res.status(err.status || 500)`.  The service's
errors are plain `Error`s carrying no `status` property, so the fallback
500 always applies. -/
def middlewareStatus : ErroApi → Nat := fun _ => 500

inductive Fonte where
  | cache
  | api
deriving DecidableEq, Repr

/-- `veiculoData` as sent in the success body: the record plus the
`fonte` tag the controller adds. -/
structure VeiculoFonte where
  veiculo : Veiculo
  fonte : Fonte
deriving DecidableEq, Repr

/-- The JSON reply of `GET /api/consulta/:placa`. -/
inductive Resposta where
  | badRequest (error message : String)
  | ok (data : VeiculoFonte) (timestamp : Int)
  | serverError (status : Nat) (error : String)
deriving DecidableEq, Repr

def Resposta.statusCode : Resposta → Nat
  | .badRequest .. => 400
  | .ok .. => 200
  | .serverError st _ => st

/-- A stored `Vehicle` document as the cache query returns it:
the record plus its `dataConsulta` timestamp (epoch milliseconds). -/
structure Registro where
  veiculo : Veiculo
  dataConsulta : Int
deriving DecidableEq, Repr

/-- The fetch branch shared by the cache-miss and stale-cache paths:
call the service, tag `fonte = 'api'`, attempt to persist (a save failure
is caught and only logged), reply.  The `Bool` component reports whether
the record was persisted. -/
def caminhoApi (placa : String) (agora : Int)
    (api : String → Except ErroApi Veiculo) (save : Except Unit Unit) :
    Resposta × Bool :=
  match api placa with
  | .error e => (.serverError (middlewareStatus e) (mensagemDe e), false)
  | .ok v =>
    (.ok ⟨v, .api⟩ agora, match save with | .ok _ => true | .error _ => false)

/-- `consultaController.consultar` (`GET /api/consulta/:placa`).
`placa?` is the route parameter; `cacheRead` models
`Vehicle.findLatestByPlaca` (`.error` = store unreachable, caught and
treated as no cached record); `agora` is the clock in epoch ms; `api`
models `apiPlacasService.consultarPlaca`; `save` models
`new Vehicle(veiculoData).save()`. -/
def consultar (placa? : Option String)
    (cacheRead : Except Unit (Option Registro)) (agora : Int)
    (api : String → Except ErroApi Veiculo) (save : Except Unit Unit) :
    Resposta × Bool :=
  match placa? with
  | none =>
    (.badRequest "Placa é obrigatória"
      "Informe a placa do veículo no formato AAA0X00 ou AAA9999", false)
  | some placa =>
    if placa = "" then
      (.badRequest "Placa é obrigatória"
        "Informe a placa do veículo no formato AAA0X00 ou AAA9999", false)
    else
      let consultaRecente : Option Registro :=
        match cacheRead with
        | .error _ => none
        | .ok r => r
      let umDiaAtras := agora - 24 * 60 * 60 * 1000
      match consultaRecente with
      | some reg =>
        if umDiaAtras < reg.dataConsulta then
          (.ok ⟨reg.veiculo, .cache⟩ agora, false)
        else caminhoApi placa agora api save
      | none => caminhoApi placa agora api save

/-- Spec-side characterization of the "pick highest-scoring valuation"
reduction: `b` is the first candidate of `l` attaining the maximal
`(score||0)` key — every candidate before it scores strictly lower and no
candidate scores higher.  Stated from the spec's words, to be compared
with the code's sort-and-take-first. -/
def IsFirstMax (l : List FipeDado) (b : FipeDado) : Prop :=
  ∃ l1 l2, l = l1 ++ b :: l2 ∧ (∀ y ∈ l1, sortKey y < sortKey b) ∧
    ∀ y ∈ l, sortKey y ≤ sortKey b

instance : IsTotal FipeDado fipeSortRel :=
  ⟨fun a b => le_total (sortKey b) (sortKey a)⟩

instance : IsTrans FipeDado fipeSortRel :=
  ⟨fun _ _ _ h1 h2 => le_trans h2 h1⟩

/-! ## Concrete fixtures (used by the witnesses below) -/

/-- A provider response with every optional field absent and the
"no error" sentinel message. -/
def respostaVazia : ApiResposta :=
  { mensagemRetorno := some "Sem erros.", fipeDados := none, placa := none,
    marca := none, modelo := none, ano := none, anoModelo := none, cor := none,
    chassi := none, renavam := none, uf := none, municipio := none, situacao := none }

/-- A valuation list whose maximal score 80 is attained twice, in provider
order: score 50 first, then the two score-80 entries. -/
def fipeTeste : List FipeDado :=
  [⟨some 50, some "R$ 10.000,00"⟩, ⟨some 80, some "R$ 20.000,00"⟩,
    ⟨some 80, some "R$ 30.000,00"⟩]

def respostaFipe : ApiResposta := { respostaVazia with fipeDados := some fipeTeste }

def veiculoTeste : Veiculo := montarVeiculo "ABC1234" respostaVazia

/-- A scraped page whose primary selector tier yields two distinct prices,
one of them twice. -/
def paginaTeste : Pagina := ⟨["R$ 50.000,00", "R$ 30.000", "R$ 50.000,00"], [], []⟩

def urlTeste : String :=
  "https://www.olx.com.br/autos-e-pecas/carros-vans-e-utilitarios/volkswagen-gol/10/2015"

/-! ## Supporting lemmas -/

lemma mkRat_natCast_nonneg (n : Nat) (d : Nat) : 0 ≤ mkRat (n : Int) d := by
  rw [Rat.mkRat_eq_div]
  positivity

lemma parseFloatQ_nonneg (l : List Char) : 0 ≤ parseFloatQ l := by
  unfold parseFloatQ
  dsimp only
  split
  · exact mkRat_natCast_nonneg _ _
  · exact mkRat_natCast_nonneg _ _

lemma extrairPreco_nonneg (texto : String) (p : ℚ) (h : extrairPreco texto = some p) :
    0 ≤ p := by
  unfold extrairPreco at h
  split at h
  · exact absurd h (by simp)
  · dsimp only at h
    split at h
    · simp only [Option.some.injEq] at h
      exact h ▸ parseFloatQ_nonneg _
    · split at h
      · simp only [Option.some.injEq] at h
        exact h ▸ Nat.cast_nonneg _
      · exact absurd h (by simp)

/-! ## C1 — price extractor -/

/-- **C1** (counterexample).  The claim as stated maps `"5000000"` to
5000000 and `"R$ 123"` to no price; the code returns 500 and 123,
because the grouped-thousands regex is unanchored: it matches the
leading `\d{1,3}` prefix of any digit string, so the ≥ 4-digit fallback
is unreachable whenever the text contains a digit. -/
theorem extrairPreco_claim_cex :
    extrairPreco "5000000" = some 500 ∧ extrairPreco "5000000" ≠ some 5000000 ∧
    extrairPreco "R$ 123" = some 123 ∧ extrairPreco "R$ 123" ≠ none :=
  ⟨by decide, by decide, by decide, by decide⟩

/-- **C1** (amended).  The price extractor is a total function into
`Option ℚ` (it never fails on malformed input) and every price it
returns is nonnegative; it maps `"R$ 50.000,00"` to 50000.00 and `""`
to no price; but, the grouped-number pattern being unanchored,
`"5000000"` maps to 500 (its first three digits) and `"R$ 123"` maps
to 123 rather than to no price. -/
theorem extrairPreco_spec :
    extrairPreco "R$ 50.000,00" = some 50000 ∧
    extrairPreco "" = none ∧
    extrairPreco "5000000" = some 500 ∧
    extrairPreco "R$ 123" = some 123 ∧
    (∀ texto p, extrairPreco texto = some p → 0 ≤ p) :=
  ⟨by decide, by decide, by decide, by decide, extrairPreco_nonneg⟩

/-- Witness for the universally quantified part of `extrairPreco_spec`. -/
theorem extrairPreco_spec_witness : (0 : ℚ) ≤ 50000 :=
  extrairPreco_spec.2.2.2.2 "R$ 50.000,00" 50000 (by decide)

/-- `consultarPlaca` throws the invalid-format error exactly when the
normalized plate fails `validarPlaca`; shared by several results below. -/
lemma consultarPlaca_invalid_iff (placa : String) (provider : String → Provedor) :
    consultarPlaca placa provider = .error .invalidFormat ↔
      validarPlaca (formatarPlaca placa) = false := by
  unfold consultarPlaca
  by_cases h : validarPlaca (formatarPlaca placa)
  · simp only [h, Bool.not_true, Bool.false_eq_true, if_false]
    constructor
    · intro hc
      cases hp : provider (formatarPlaca placa) with
      | ok data0 =>
        rw [hp] at hc
        cases hm : mensagemErro data0.mensagemRetorno with
        | some m => simp [hm] at hc
        | none => simp [hm] at hc
      | httpError st stx => simp [hp] at hc
      | networkError => simp [hp] at hc
    · intro hc
      simp [h] at hc
  · simp [h]

/-! ## C5 — plate validation -/

/-- **C5**.  `consultarPlaca` fails with the invalid-format error exactly
when the whitespace-stripped, uppercased plate matches neither the legacy
`AAA9999` pattern nor the Mercosul `AAA0A00` pattern; the validator
accepts `ABC1234` and `ABC1D23` and rejects `AB1234`, `ABCD123` and
`abc-1234` (still rejected after normalization, because of the hyphen). -/
theorem validarPlaca_spec :
    (∀ placa provider, consultarPlaca placa provider = .error .invalidFormat ↔
      validarPlaca (formatarPlaca placa) = false) ∧
    validarPlaca "ABC1234" = true ∧ validarPlaca "ABC1D23" = true ∧
    validarPlaca "AB1234" = false ∧ validarPlaca "ABCD123" = false ∧
    (∀ provider, consultarPlaca "abc-1234" provider = .error .invalidFormat) :=
  ⟨consultarPlaca_invalid_iff, by decide, by decide, by decide, by decide,
    fun provider => (consultarPlaca_invalid_iff "abc-1234" provider).mpr (by decide)⟩

/-- Witness for `validarPlaca_spec`: at the concrete plate `abc-1234` and
a concrete provider the lookup indeed fails with the format error. -/
theorem validarPlaca_spec_witness :
    consultarPlaca "abc-1234" (fun _ => .networkError) = .error .invalidFormat :=
  validarPlaca_spec.2.2.2.2.2 (fun _ => .networkError)

/-! ## C6 — cache-or-fetch freshness -/

/-- **C6**.  For a plain lookup with a nonempty plate: when the most
recent stored record exists and its `dataConsulta` lies strictly within
24 hours of `agora`, it is returned tagged `fonte = cache` and the reply
does not depend on the lookup client (which is not invoked); when the
record is stale, or absent, the flow equals the fetch branch, whose
successful reply carries the client's record tagged `fonte = api`. -/
theorem consultar_cache_spec (placa : String) (hp : placa ≠ "") (agora : Int)
    (reg : Registro) (api : String → Except ErroApi Veiculo) (save : Except Unit Unit) :
    (agora - 24 * 60 * 60 * 1000 < reg.dataConsulta →
      consultar (some placa) (.ok (some reg)) agora api save =
        (.ok ⟨reg.veiculo, .cache⟩ agora, false)) ∧
    (¬ agora - 24 * 60 * 60 * 1000 < reg.dataConsulta →
      consultar (some placa) (.ok (some reg)) agora api save =
        caminhoApi placa agora api save) ∧
    (consultar (some placa) (.ok none) agora api save =
      caminhoApi placa agora api save) ∧
    (∀ v, api placa = .ok v →
      (caminhoApi placa agora api save).1 = .ok ⟨v, .api⟩ agora) := by
  have hd : (24 : Int) * 60 * 60 * 1000 = 86400000 := by norm_num
  refine ⟨fun h => ?_, fun h => ?_, ?_, fun v hv => ?_⟩
  · rw [hd] at h; simp [consultar, hp, h]
  · rw [hd] at h; simp [consultar, hp, h]
  · simp [consultar, hp]
  · simp [caminhoApi, hv]

/-- Witness for `consultar_cache_spec`: with `agora` = 100 h in epoch ms,
a record stored 23 hours ago is served from the cache and one stored
25 hours ago goes through the fetch branch, tagged `api`. -/
theorem consultar_cache_spec_witness :
    consultar (some "ABC1234") (.ok (some ⟨veiculoTeste, 360000000 - 23 * 3600000⟩))
        360000000 (fun _ => .ok veiculoTeste) (.ok ()) =
      (.ok ⟨veiculoTeste, .cache⟩ 360000000, false) ∧
    consultar (some "ABC1234") (.ok (some ⟨veiculoTeste, 360000000 - 25 * 3600000⟩))
        360000000 (fun _ => .ok veiculoTeste) (.ok ()) =
      (.ok ⟨veiculoTeste, .api⟩ 360000000, true) := by
  constructor
  · exact (consultar_cache_spec "ABC1234" (by decide) 360000000
      ⟨veiculoTeste, 360000000 - 23 * 3600000⟩ (fun _ => .ok veiculoTeste) (.ok ())).1
      (by decide)
  · rw [(consultar_cache_spec "ABC1234" (by decide) 360000000
      ⟨veiculoTeste, 360000000 - 25 * 3600000⟩ (fun _ => .ok veiculoTeste) (.ok ())).2.1
      (by decide)]
    rfl

/-! ## C7 — store failures stay local -/

lemma caminhoApi_fst_save (placa : String) (agora : Int)
    (api : String → Except ErroApi Veiculo) (save save' : Except Unit Unit) :
    (caminhoApi placa agora api save).1 = (caminhoApi placa agora api save').1 := by
  unfold caminhoApi
  cases api placa <;> rfl

/-- **C7**.  Store-layer failures never reach the caller: a failing cache
read produces exactly the same outcome as a cache miss, and the outcome
of the save never changes the HTTP reply (only the persisted flag). -/
theorem consultar_store_failures (placa? : Option String) (agora : Int)
    (cacheRead : Except Unit (Option Registro))
    (api : String → Except ErroApi Veiculo) (save save' : Except Unit Unit) :
    consultar placa? (.error ()) agora api save =
      consultar placa? (.ok none) agora api save ∧
    (consultar placa? cacheRead agora api save).1 =
      (consultar placa? cacheRead agora api save').1 := by
  constructor
  · rfl
  · cases placa? with
    | none => rfl
    | some placa =>
      by_cases hp : placa = ""
      · simp [consultar, hp]
      · simp only [consultar, hp, if_false]
        cases cacheRead with
        | error e => exact caminhoApi_fst_save ..
        | ok r =>
          cases r with
          | none => exact caminhoApi_fst_save ..
          | some reg =>
            dsimp only
            by_cases hf : agora - 24 * 60 * 60 * 1000 < reg.dataConsulta
            · rw [if_pos hf, if_pos hf]
            · rw [if_neg hf, if_neg hf]
              exact caminhoApi_fst_save ..

/-- Witness for `consultar_store_failures` at concrete inputs. -/
theorem consultar_store_failures_witness :
    consultar (some "ABC1234") (.error ()) 0 (fun _ => .ok veiculoTeste) (.ok ()) =
      consultar (some "ABC1234") (.ok none) 0 (fun _ => .ok veiculoTeste) (.ok ()) ∧
    (consultar (some "ABC1234") (.ok none) 0 (fun _ => .ok veiculoTeste) (.ok ())).1 =
      (consultar (some "ABC1234") (.ok none) 0 (fun _ => .ok veiculoTeste) (.error ())).1 :=
  ⟨(consultar_store_failures (some "ABC1234") 0 (.ok none)
      (fun _ => .ok veiculoTeste) (.ok ()) (.error ())).1,
    (consultar_store_failures (some "ABC1234") 0 (.ok none)
      (fun _ => .ok veiculoTeste) (.ok ()) (.error ())).2⟩

/-! ## C8 — HTTP status for missing/malformed plates -/

/-- **C8** (counterexample).  A lookup of the malformed plate `AB1234`
(with an empty cache) is answered with HTTP status 500, not 400: the
invalid-format `Error` carries no `status` property, so the top-level
middleware falls back to 500. -/
theorem consultar_malformed_cex :
    (consultar (some "AB1234") (.ok none) 0
        (fun p => consultarPlaca p fun _ => .networkError) (.ok ())).1 =
      .serverError 500 msgFormatoInvalido ∧
    ((consultar (some "AB1234") (.ok none) 0
        (fun p => consultarPlaca p fun _ => .networkError) (.ok ())).1).statusCode ≠ 400 :=
  ⟨by decide, by decide⟩

/-- **C8** (amended).  A request with a missing or empty plate is
answered 400 with the guidance message; a malformed plate (on a cache
miss) is instead answered 500: the invalid-format error funnels through
the generic error middleware, whose status defaults to 500, with the
validator's guidance text as the error message. -/
theorem consultar_status_spec (agora : Int) (save : Except Unit Unit)
    (cacheRead : Except Unit (Option Registro)) (provider : String → Provedor) :
    ((consultar none cacheRead agora (fun p => consultarPlaca p provider) save).1 =
      .badRequest "Placa é obrigatória"
        "Informe a placa do veículo no formato AAA0X00 ou AAA9999") ∧
    ((consultar (some "") cacheRead agora (fun p => consultarPlaca p provider) save).1 =
      .badRequest "Placa é obrigatória"
        "Informe a placa do veículo no formato AAA0X00 ou AAA9999") ∧
    (∀ placa, placa ≠ "" → validarPlaca (formatarPlaca placa) = false →
      (consultar (some placa) (.ok none) agora
          (fun p => consultarPlaca p provider) save).1 =
        .serverError 500 msgFormatoInvalido) := by
  refine ⟨rfl, rfl, fun placa hp hv => ?_⟩
  have h := (consultarPlaca_invalid_iff placa provider).mpr hv
  simp [consultar, hp, caminhoApi, h, middlewareStatus, mensagemDe]

/-- Witness for `consultar_status_spec`: the malformed plate `ABCD123`. -/
theorem consultar_status_spec_witness :
    (consultar (some "ABCD123") (.ok none) 0
        (fun p => consultarPlaca p fun _ => .networkError) (.ok ())).1 =
      .serverError 500 msgFormatoInvalido :=
  (consultar_status_spec 0 (.ok ()) (.ok none) (fun _ => .networkError)).2.2
    "ABCD123" (by decide) (by decide)

/-! ## C4, C9, C10 — the best-scoring FIPE candidate -/

lemma head?_orderedInsert (x y : FipeDado) (l : List FipeDado) :
    (List.orderedInsert fipeSortRel x (y :: l)).head? =
      some (if fipeSortRel x y then x else y) := by
  unfold List.orderedInsert
  split <;> rename_i h <;> simp [h]

lemma headI_of_head? {l : List FipeDado} {b : FipeDado} (h : l.head? = some b) :
    l.headI = b := by
  cases l with
  | nil => simp at h
  | cons a t =>
    simp only [List.head?_cons, Option.some.injEq] at h
    simp [h]

/-- The head of the stable descending sort is the first maximal-score
candidate of the input. -/
lemma sortFipe_head (l : List FipeDado) (hne : l ≠ []) :
    ∃ b, (sortFipe l).head? = some b ∧ IsFirstMax l b := by
  induction l with
  | nil => exact absurd rfl hne
  | cons x t ih =>
    cases t with
    | nil =>
      exact ⟨x, rfl, [], [], rfl, by simp, by simp⟩
    | cons y u =>
      obtain ⟨b, hb, hmax⟩ := ih (by simp)
      obtain ⟨rest, hrest⟩ : ∃ rest, sortFipe (y :: u) = b :: rest := by
        cases hs : sortFipe (y :: u) with
        | nil => rw [hs] at hb; simp at hb
        | cons a r =>
          rw [hs] at hb
          simp only [List.head?_cons, Option.some.injEq] at hb
          exact ⟨r, by rw [hb]⟩
      have hsort : sortFipe (x :: y :: u) =
          List.orderedInsert fipeSortRel x (sortFipe (y :: u)) := rfl
      obtain ⟨l1, l2, heq, hlt, hle⟩ := hmax
      by_cases h : sortKey b ≤ sortKey x
      · refine ⟨x, ?_, [], y :: u, rfl, by simp, ?_⟩
        · rw [hsort, hrest, head?_orderedInsert, if_pos (show fipeSortRel x b from h)]
        · intro z hz
          rcases List.mem_cons.mp hz with hz | hz
          · exact hz ▸ le_refl _
          · exact le_trans (hle z hz) h
      · push_neg at h
        refine ⟨b, ?_, x :: l1, l2, by rw [heq, List.cons_append], ?_, ?_⟩
        · rw [hsort, hrest, head?_orderedInsert,
            if_neg (show ¬ fipeSortRel x b from not_le.mpr h)]
        · intro z hz
          rcases List.mem_cons.mp hz with hz | hz
          · exact hz ▸ h
          · exact hlt z hz
        · intro z hz
          rcases List.mem_cons.mp hz with hz | hz
          · exact hz ▸ le_of_lt h
          · exact hle z hz

/-- On a valid plate, a successful provider call and a non-error message,
`consultarPlaca` succeeds with the assembled record. -/
lemma consultarPlaca_ok (placa : String) (provider : String → Provedor)
    (data0 : ApiResposta)
    (hval : validarPlaca (formatarPlaca placa) = true)
    (hprov : provider (formatarPlaca placa) = .ok data0)
    (hmsg : mensagemErro data0.mensagemRetorno = none) :
    consultarPlaca placa provider = .ok (montarVeiculo (formatarPlaca placa) data0) := by
  unfold consultarPlaca
  simp [hval, hprov, hmsg]

/-- The FIPE-derived fields of the assembled record when the valuation
list is nonempty. -/
lemma montarVeiculo_fipe (pf : String) (data0 : ApiResposta)
    (d0 : FipeDado) (ds : List FipeDado)
    (hfipe : data0.fipeDados = some (d0 :: ds)) :
    (montarVeiculo pf data0).valorFipe =
        strOrNull (sortFipe (d0 :: ds)).headI.texto_valor ∧
    (montarVeiculo pf data0).valorFipeScore =
        scoreOrNull (sortFipe (d0 :: ds)).headI.score ∧
    (montarVeiculo pf data0).dadosFipe = some (sortFipe (d0 :: ds)) := by
  unfold montarVeiculo processarFipe
  rw [hfipe]
  exact ⟨rfl, rfl, rfl⟩

/-- **C4**.  Whenever the lookup succeeds on a provider response carrying
a nonempty valuation list, the exposed valuation text and score are those
of the candidate with the highest match score, where an absent score
counts as 0 and ties resolve to the candidate occurring first in provider
order (the exposure applies the `|| null` falsy coercions of the code). -/
theorem consultarPlaca_best_fipe (placa : String) (provider : String → Provedor)
    (data0 : ApiResposta) (l : List FipeDado)
    (hval : validarPlaca (formatarPlaca placa) = true)
    (hprov : provider (formatarPlaca placa) = .ok data0)
    (hmsg : mensagemErro data0.mensagemRetorno = none)
    (hfipe : data0.fipeDados = some l) (hne : l ≠ []) :
    ∃ v b, consultarPlaca placa provider = .ok v ∧ IsFirstMax l b ∧
      v.valorFipe = strOrNull b.texto_valor ∧
      v.valorFipeScore = scoreOrNull b.score := by
  obtain ⟨b, hb, hmax⟩ := sortFipe_head l hne
  cases l with
  | nil => exact absurd rfl hne
  | cons d0 ds =>
    obtain ⟨h1, h2, h3⟩ := montarVeiculo_fipe (formatarPlaca placa) data0 d0 ds hfipe
    exact ⟨montarVeiculo (formatarPlaca placa) data0, b,
      consultarPlaca_ok placa provider data0 hval hprov hmsg, hmax,
      by rw [h1, headI_of_head? hb], by rw [h2, headI_of_head? hb]⟩

/-- Witness for `consultarPlaca_best_fipe` on the concrete fixture: the
best candidate is the first of the two score-80 entries, not the score-50
entry that comes first in provider order. -/
theorem consultarPlaca_best_fipe_witness :
    ∃ v b, consultarPlaca "abc1d23" (fun _ => .ok respostaFipe) = .ok v ∧
      IsFirstMax fipeTeste b ∧
      v.valorFipe = strOrNull b.texto_valor ∧
      v.valorFipeScore = scoreOrNull b.score :=
  consultarPlaca_best_fipe "abc1d23" (fun _ => .ok respostaFipe) respostaFipe
    fipeTeste (by decide) rfl (by decide) rfl (by decide)

/-- **C9**.  If the best-scoring candidate has score 0 or no score, the
record's `valorFipeScore` is `null` rather than 0; a best candidate whose
valuation text is empty or absent yields `valorFipe = null`. -/
theorem consultarPlaca_nullish (placa : String) (provider : String → Provedor)
    (data0 : ApiResposta) (l : List FipeDado) (b : FipeDado)
    (hval : validarPlaca (formatarPlaca placa) = true)
    (hprov : provider (formatarPlaca placa) = .ok data0)
    (hmsg : mensagemErro data0.mensagemRetorno = none)
    (hfipe : data0.fipeDados = some l) (hne : l ≠ [])
    (hb : (sortFipe l).head? = some b) :
    ∃ v, consultarPlaca placa provider = .ok v ∧
      ((b.score = some 0 ∨ b.score = none) → v.valorFipeScore = none) ∧
      ((b.texto_valor = some "" ∨ b.texto_valor = none) → v.valorFipe = none) := by
  cases l with
  | nil => exact absurd rfl hne
  | cons d0 ds =>
    obtain ⟨h1, h2, _⟩ := montarVeiculo_fipe (formatarPlaca placa) data0 d0 ds hfipe
    refine ⟨montarVeiculo (formatarPlaca placa) data0,
      consultarPlaca_ok placa provider data0 hval hprov hmsg, ?_, ?_⟩
    · rintro (hs | hs) <;>
        rw [h2, headI_of_head? hb, hs] <;> simp [scoreOrNull]
    · rintro (ht | ht) <;>
        rw [h1, headI_of_head? hb, ht] <;> simp [strOrNull]

/-- Witness for `consultarPlaca_nullish`: a single candidate with score 0
and empty valuation text is exposed as `null`/`null`. -/
theorem consultarPlaca_nullish_witness :
    ∃ v, consultarPlaca "abc1d23"
        (fun _ => .ok { respostaVazia with
          fipeDados := some [⟨some 0, some ""⟩] }) = .ok v ∧
      ((FipeDado.mk (some 0) (some "")).score = some 0 ∨
        (FipeDado.mk (some 0) (some "")).score = none →
          v.valorFipeScore = none) ∧
      ((FipeDado.mk (some 0) (some "")).texto_valor = some "" ∨
        (FipeDado.mk (some 0) (some "")).texto_valor = none →
          v.valorFipe = none) :=
  consultarPlaca_nullish "abc1d23"
    (fun _ => .ok { respostaVazia with fipeDados := some [⟨some 0, some ""⟩] })
    { respostaVazia with fipeDados := some [⟨some 0, some ""⟩] }
    [⟨some 0, some ""⟩] ⟨some 0, some ""⟩
    (by decide) rfl (by decide) rfl (by decide) (by decide)

/-- **C10**.  After a successful lookup with a nonempty valuation list,
the retained `dadosFipe` is the provider's array as mutated by the
in-place sort: a permutation of the provider's candidates (none dropped),
in stable descending `(score||0)` order — so generally not in the
original provider order. -/
theorem consultarPlaca_dadosFipe (placa : String) (provider : String → Provedor)
    (data0 : ApiResposta) (l : List FipeDado)
    (hval : validarPlaca (formatarPlaca placa) = true)
    (hprov : provider (formatarPlaca placa) = .ok data0)
    (hmsg : mensagemErro data0.mensagemRetorno = none)
    (hfipe : data0.fipeDados = some l) (hne : l ≠ []) :
    ∃ v, consultarPlaca placa provider = .ok v ∧
      v.dadosFipe = some (sortFipe l) ∧
      (sortFipe l).Perm l ∧
      List.Sorted fipeSortRel (sortFipe l) := by
  cases l with
  | nil => exact absurd rfl hne
  | cons d0 ds =>
    obtain ⟨_, _, h3⟩ := montarVeiculo_fipe (formatarPlaca placa) data0 d0 ds hfipe
    exact ⟨montarVeiculo (formatarPlaca placa) data0,
      consultarPlaca_ok placa provider data0 hval hprov hmsg, h3,
      List.perm_insertionSort fipeSortRel (d0 :: ds),
      List.sorted_insertionSort fipeSortRel (d0 :: ds)⟩

/-! ## C3 — the price-summary reduction -/

lemma mem_jsSetDedupAux (a : ℚ) (seen l : List ℚ) :
    a ∈ jsSetDedupAux seen l ↔ a ∈ l ∧ a ∉ seen := by
  induction l generalizing seen with
  | nil => simp [jsSetDedupAux]
  | cons p l ih =>
    unfold jsSetDedupAux
    by_cases hp : p ∈ seen
    · rw [if_pos hp, ih]
      constructor
      · rintro ⟨h1, h2⟩
        exact ⟨List.mem_cons_of_mem _ h1, h2⟩
      · rintro ⟨h1, h2⟩
        rcases List.mem_cons.mp h1 with rfl | h1
        · exact absurd hp h2
        · exact ⟨h1, h2⟩
    · rw [if_neg hp]
      constructor
      · intro h
        rcases List.mem_cons.mp h with rfl | h
        · exact ⟨List.mem_cons_self _ _, hp⟩
        · rw [ih] at h
          exact ⟨List.mem_cons_of_mem _ h.1, fun hs => h.2 (List.mem_cons_of_mem _ hs)⟩
      · rintro ⟨h1, h2⟩
        rcases List.mem_cons.mp h1 with rfl | h1
        · exact List.mem_cons_self _ _
        · by_cases hap : a = p
          · subst hap
            exact List.mem_cons_self _ _
          · exact List.mem_cons_of_mem _
              ((ih (p :: seen)).mpr ⟨h1, by simp [List.mem_cons, h2, hap]⟩)

lemma nodup_jsSetDedup (l : List ℚ) : (jsSetDedup l).Nodup := by
  suffices h : ∀ seen, (jsSetDedupAux seen l).Nodup from h []
  induction l with
  | nil => intro seen; simp [jsSetDedupAux]
  | cons p l ih =>
    intro seen
    unfold jsSetDedupAux
    by_cases hp : p ∈ seen
    · rw [if_pos hp]; exact ih seen
    · rw [if_neg hp, List.nodup_cons]
      exact ⟨fun hmem => ((mem_jsSetDedupAux p (p :: seen) l).mp hmem).2
        (List.mem_cons_self _ _), ih (p :: seen)⟩

lemma foldl_min_le (l : List ℚ) (p : ℚ) :
    l.foldl min p ≤ p ∧ ∀ x ∈ l, l.foldl min p ≤ x := by
  induction l generalizing p with
  | nil => simp
  | cons q l ih =>
    simp only [List.foldl_cons]
    obtain ⟨h1, h2⟩ := ih (min p q)
    refine ⟨le_trans h1 (min_le_left _ _), ?_⟩
    intro x hx
    rcases List.mem_cons.mp hx with rfl | hx
    · exact le_trans h1 (min_le_right _ _)
    · exact h2 x hx

lemma foldl_min_mem (l : List ℚ) (p : ℚ) : l.foldl min p = p ∨ l.foldl min p ∈ l := by
  induction l generalizing p with
  | nil => simp
  | cons q l ih =>
    simp only [List.foldl_cons]
    rcases ih (min p q) with h | h
    · rcases min_choice p q with hc | hc
      · left; rw [h, hc]
      · right; rw [h, hc]; exact List.mem_cons_self _ _
    · right; exact List.mem_cons_of_mem _ h

lemma foldl_max_ge (l : List ℚ) (p : ℚ) :
    p ≤ l.foldl max p ∧ ∀ x ∈ l, x ≤ l.foldl max p := by
  induction l generalizing p with
  | nil => simp
  | cons q l ih =>
    simp only [List.foldl_cons]
    obtain ⟨h1, h2⟩ := ih (max p q)
    refine ⟨le_trans (le_max_left _ _) h1, ?_⟩
    intro x hx
    rcases List.mem_cons.mp hx with rfl | hx
    · exact le_trans (le_max_right _ _) h1
    · exact h2 x hx

lemma foldl_max_mem (l : List ℚ) (p : ℚ) : l.foldl max p = p ∨ l.foldl max p ∈ l := by
  induction l generalizing p with
  | nil => simp
  | cons q l ih =>
    simp only [List.foldl_cons]
    rcases ih (max p q) with h | h
    · rcases max_choice p q with hc | hc
      · left; rw [h, hc]
      · right; rw [h, hc]; exact List.mem_cons_self _ _
    · right; exact List.mem_cons_of_mem _ h

/-- `Math.min(...)` over a nonempty list is a member and a lower bound. -/
lemma listMin_spec (l : List ℚ) (h : l ≠ []) :
    listMin l ∈ l ∧ ∀ x ∈ l, listMin l ≤ x := by
  cases l with
  | nil => exact absurd rfl h
  | cons p t =>
    unfold listMin
    dsimp only
    constructor
    · rcases foldl_min_mem t p with h1 | h1
      · rw [h1]; exact List.mem_cons_self _ _
      · exact List.mem_cons_of_mem _ h1
    · intro x hx
      rcases List.mem_cons.mp hx with rfl | hx
      · exact (foldl_min_le t x).1
      · exact (foldl_min_le t p).2 x hx

/-- `Math.max(...)` over a nonempty list is a member and an upper bound. -/
lemma listMax_spec (l : List ℚ) (h : l ≠ []) :
    listMax l ∈ l ∧ ∀ x ∈ l, x ≤ listMax l := by
  cases l with
  | nil => exact absurd rfl h
  | cons p t =>
    unfold listMax
    dsimp only
    constructor
    · rcases foldl_max_mem t p with h1 | h1
      · rw [h1]; exact List.mem_cons_self _ _
      · exact List.mem_cons_of_mem _ h1
    · intro x hx
      rcases List.mem_cons.mp hx with rfl | hx
      · exact (foldl_max_ge t x).1
      · exact (foldl_max_ge t p).2 x hx

/-- **C3**.  `buscarPrecosOlx` totally returns a summary or `none` and
never throws to its caller: a missing URL or any exception in the
try-block yields `none`; when the deduplicated positive price list is
empty the result is `none`; otherwise the summary carries the
currency-formatted minimum, maximum and arithmetic mean of the unique
positive prices, their count, and the source URL. -/
theorem buscarPrecosOlx_spec (v : VeiculoDados) (fetch : String → Except Unit Pagina) :
    (gerarUrlOlx v = none → buscarPrecosOlx v fetch = none) ∧
    (∀ u, gerarUrlOlx v = some u → fetch u = .error () →
      buscarPrecosOlx v fetch = none) ∧
    (∀ u pg, gerarUrlOlx v = some u → fetch u = .ok pg →
      (precosUnicosDe pg = [] → buscarPrecosOlx v fetch = none) ∧
      (precosUnicosDe pg ≠ [] →
        (precosUnicosDe pg).Nodup ∧
        (∀ p ∈ precosUnicosDe pg, 0 < p) ∧
        listMin (precosUnicosDe pg) ∈ precosUnicosDe pg ∧
        (∀ p ∈ precosUnicosDe pg, listMin (precosUnicosDe pg) ≤ p) ∧
        listMax (precosUnicosDe pg) ∈ precosUnicosDe pg ∧
        (∀ p ∈ precosUnicosDe pg, p ≤ listMax (precosUnicosDe pg)) ∧
        buscarPrecosOlx v fetch = some
          { menorPreco := formatarPreco (listMin (precosUnicosDe pg))
            maiorPreco := formatarPreco (listMax (precosUnicosDe pg))
            mediaPreco := formatarPreco
              (somaQ (precosUnicosDe pg) / ((precosUnicosDe pg).length : ℚ))
            quantidadeAnuncios := (precosUnicosDe pg).length
            urlOlx := u })) := by
  refine ⟨fun h => ?_, fun u hu hf => ?_, fun u pg hu hf => ⟨fun he => ?_, fun hne => ?_⟩⟩
  · unfold buscarPrecosOlx; rw [h]
  · unfold buscarPrecosOlx
    rw [hu]
    dsimp only
    rw [hf]
  · unfold buscarPrecosOlx
    rw [hu]
    dsimp only
    rw [hf]
    simp [he]
  · have hie : (precosUnicosDe pg).isEmpty = false := by
      cases hcase : precosUnicosDe pg with
      | nil => exact absurd hcase hne
      | cons a b => rfl
    have hnodup : (precosUnicosDe pg).Nodup := by
      unfold precosUnicosDe
      exact (nodup_jsSetDedup _).filter _
    have hpos : ∀ p ∈ precosUnicosDe pg, 0 < p := by
      intro p hp
      unfold precosUnicosDe at hp
      have := (List.mem_filter.mp hp).2
      exact of_decide_eq_true this
    refine ⟨hnodup, hpos, (listMin_spec _ hne).1, (listMin_spec _ hne).2,
      (listMax_spec _ hne).1, (listMax_spec _ hne).2, ?_⟩
    unfold buscarPrecosOlx
    rw [hu]
    dsimp only
    rw [hf]
    dsimp only
    simp only [hie, Bool.false_eq_true, if_false]

/-- Witness for `buscarPrecosOlx_spec`: a page with prices 50000 (twice)
and 30000 produces the full summary. -/
theorem buscarPrecosOlx_spec_witness :
    buscarPrecosOlx ⟨some "Volkswagen Gol", some "1.0", some "2015 Flex"⟩
        (fun _ => .ok paginaTeste) =
      some
        { menorPreco := formatarPreco (listMin (precosUnicosDe paginaTeste))
          maiorPreco := formatarPreco (listMax (precosUnicosDe paginaTeste))
          mediaPreco := formatarPreco
            (somaQ (precosUnicosDe paginaTeste) /
              ((precosUnicosDe paginaTeste).length : ℚ))
          quantidadeAnuncios := (precosUnicosDe paginaTeste).length
          urlOlx := urlTeste } :=
  (((buscarPrecosOlx_spec ⟨some "Volkswagen Gol", some "1.0", some "2015 Flex"⟩
      (fun _ => .ok paginaTeste)).2.2 urlTeste paginaTeste (by decide) rfl).2
    (by decide)).2.2.2.2.2.2

/-! ## C2 — URL normalization -/

lemma mem_trimWS {c : Char} {l : List Char} (h : c ∈ trimWS l) : c ∈ l := by
  unfold trimWS at h
  rw [List.mem_reverse] at h
  have h2 := (List.dropWhile_sublist _).subset h
  rw [List.mem_reverse] at h2
  exact (List.dropWhile_sublist _).subset h2

lemma mem_collapseRunsAux {p : Char → Bool} {c : Char} {b : Bool} {l : List Char}
    (h : c ∈ collapseRunsAux p b l) : c = '-' ∨ (c ∈ l ∧ p c = false) := by
  induction l generalizing b with
  | nil => cases b <;> simp [collapseRunsAux] at h
  | cons d t ih =>
    have step : ∀ h1 : c ∈ collapseRunsAux p false t ∨ c ∈ collapseRunsAux p true t,
        c = '-' ∨ (c ∈ d :: t ∧ p c = false) := by
      rintro (h1 | h1) <;>
        rcases ih h1 with h2 | h2 <;>
          first
            | exact Or.inl h2
            | exact Or.inr ⟨List.mem_cons_of_mem _ h2.1, h2.2⟩
    cases b with
    | true =>
      unfold collapseRunsAux at h
      by_cases hd : p d
      · rw [if_pos hd] at h
        exact step (Or.inr h)
      · rw [if_neg hd] at h
        rcases List.mem_cons.mp h with rfl | h
        · exact Or.inr ⟨List.mem_cons_self _ _, by simpa using hd⟩
        · exact step (Or.inl h)
    | false =>
      unfold collapseRunsAux at h
      by_cases hd : p d
      · rw [if_pos hd] at h
        rcases List.mem_cons.mp h with rfl | h
        · exact Or.inl rfl
        · exact step (Or.inr h)
      · rw [if_neg hd] at h
        rcases List.mem_cons.mp h with rfl | h
        · exact Or.inr ⟨List.mem_cons_self _ _, by simpa using hd⟩
        · exact step (Or.inl h)

lemma head?_collapseRunsAux_true {p : Char → Bool} :
    ∀ {l : List Char} {c : Char},
      (collapseRunsAux p true l).head? = some c → p c = false := by
  intro l
  induction l with
  | nil => intro c h; simp [collapseRunsAux] at h
  | cons d t ih =>
    intro c h
    unfold collapseRunsAux at h
    by_cases hd : p d
    · rw [if_pos hd] at h
      exact ih h
    · rw [if_neg hd] at h
      simp only [List.head?_cons, Option.some.injEq] at h
      subst h
      simpa using hd

lemma chain'_collapseHyphens (b : Bool) (l : List Char) :
    List.Chain' (fun x y => x ≠ '-' ∨ y ≠ '-')
      (collapseRunsAux (fun c => c == '-') b l) := by
  induction l generalizing b with
  | nil => cases b <;> simp [collapseRunsAux]
  | cons d t ih =>
    cases b with
    | true =>
      unfold collapseRunsAux
      by_cases hd : (d == '-') = true
      · rw [if_pos hd]
        exact ih true
      · rw [if_neg hd, List.chain'_cons']
        exact ⟨fun y _ => Or.inl (by simpa using hd), ih false⟩
    | false =>
      unfold collapseRunsAux
      by_cases hd : (d == '-') = true
      · rw [if_pos hd, List.chain'_cons']
        refine ⟨fun y hy => Or.inr ?_, ih true⟩
        have := head?_collapseRunsAux_true (Option.mem_def.mp hy)
        simpa using this
      · rw [if_neg hd, List.chain'_cons']
        exact ⟨fun y _ => Or.inl (by simpa using hd), ih false⟩

lemma mem_dropLeadHyphen {c : Char} {l : List Char} (h : c ∈ dropLeadHyphen l) :
    c ∈ l := by
  unfold dropLeadHyphen at h
  split at h
  · exact (List.tail_sublist _).subset h
  · exact h

lemma mem_dropTrailHyphen {c : Char} {l : List Char} (h : c ∈ dropTrailHyphen l) :
    c ∈ l := by
  unfold dropTrailHyphen at h
  split at h
  · rw [List.mem_reverse] at h
    have h2 := (List.tail_sublist _).subset h
    rwa [List.mem_reverse] at h2
  · exact h

lemma dropTrailHyphen_eq (l : List Char) :
    dropTrailHyphen l = (dropLeadHyphen l.reverse).reverse := by
  unfold dropTrailHyphen dropLeadHyphen
  by_cases h : l.reverse.head? = some '-'
  · rw [if_pos h, if_pos h]
  · rw [if_neg h, if_neg h, List.reverse_reverse]

lemma chain'_dropLeadHyphen {l : List Char}
    (hc : List.Chain' (fun x y => x ≠ '-' ∨ y ≠ '-') l) :
    List.Chain' (fun x y => x ≠ '-' ∨ y ≠ '-') (dropLeadHyphen l) := by
  unfold dropLeadHyphen
  split
  · exact hc.tail
  · exact hc

/-- The relation "not both hyphens" is symmetric, so chains transport
along `reverse`. -/
lemma chain'_reverse_hyphen {l : List Char}
    (hc : List.Chain' (fun x y => x ≠ '-' ∨ y ≠ '-') l) :
    List.Chain' (fun x y => x ≠ '-' ∨ y ≠ '-') l.reverse := by
  exact List.chain'_reverse.mpr (hc.imp fun a b hab => hab.symm)

lemma head?_dropLeadHyphen {l : List Char}
    (hc : List.Chain' (fun x y => x ≠ '-' ∨ y ≠ '-') l) {c : Char}
    (h : (dropLeadHyphen l).head? = some c) : c ≠ '-' := by
  unfold dropLeadHyphen at h
  split at h
  next hh =>
    cases l with
    | nil => simp at hh
    | cons d t =>
      simp only [List.head?_cons, Option.some.injEq] at hh
      subst hh
      rcases (List.chain'_cons'.mp hc).1 c h with h1 | h1
      · exact absurd rfl h1
      · exact h1
  next hh =>
    intro hcc
    subst hcc
    exact hh h

lemma head?_dropTrailHyphen {l : List Char} {c : Char}
    (h : (dropTrailHyphen l).head? = some c) : l.head? = some c := by
  unfold dropTrailHyphen at h
  split at h
  next hh =>
    cases hrev : l.reverse with
    | nil => rw [hrev] at hh; simp at hh
    | cons d t =>
      rw [hrev] at hh h
      simp only [List.head?_cons, Option.some.injEq] at hh
      subst hh
      have hl : l = t.reverse ++ ['-'] := by
        rw [← List.reverse_reverse l, hrev, List.reverse_cons]
      have hne : t.reverse ≠ [] := by
        intro hnil
        rw [List.tail_cons, hnil] at h
        simp at h
      rw [hl, List.head?_append_of_ne_nil _ hne]
      rw [List.tail_cons] at h
      exact h
  next => exact h

lemma getLast?_dropTrailHyphen {l : List Char}
    (hc : List.Chain' (fun x y => x ≠ '-' ∨ y ≠ '-') l) {c : Char}
    (h : (dropTrailHyphen l).getLast? = some c) : c ≠ '-' := by
  rw [dropTrailHyphen_eq, List.getLast?_reverse] at h
  exact head?_dropLeadHyphen (chain'_reverse_hyphen hc) h

lemma chain'_dropTrailHyphen {l : List Char}
    (hc : List.Chain' (fun x y => x ≠ '-' ∨ y ≠ '-') l) :
    List.Chain' (fun x y => x ≠ '-' ∨ y ≠ '-') (dropTrailHyphen l) := by
  rw [dropTrailHyphen_eq]
  exact chain'_reverse_hyphen (chain'_dropLeadHyphen (chain'_reverse_hyphen hc))

/-- The character-level content of `normalizarTexto`: only lowercase ASCII
letters, digits and hyphens survive. -/
lemma normalizarTexto_chars (texto : String) (c : Char)
    (h : c ∈ (normalizarTexto texto).data) :
    ('a' ≤ c ∧ c ≤ 'z') ∨ ('0' ≤ c ∧ c ≤ '9') ∨ c = '-' := by
  unfold normalizarTexto at h
  split at h
  · simp at h
  · dsimp only [dropEdgeHyphens] at h
    have h7 := mem_dropLeadHyphen (mem_dropTrailHyphen h)
    rcases mem_collapseRunsAux h7 with rfl | ⟨h6, hnh⟩
    · exact Or.inr (Or.inr rfl)
    · rcases mem_collapseRunsAux h6 with rfl | ⟨h5, hnw⟩
      · exact Or.inr (Or.inr rfl)
      · have h4 := mem_trimWS h5
        have hall := (List.mem_filter.mp h4).2
        unfold allowedChar at hall
        rw [hnw] at hall
        simp only [Bool.or_eq_true, Bool.and_eq_true, decide_eq_true_eq,
          Bool.or_false, beq_iff_eq] at hall
        simp only [beq_eq_false_iff_ne, ne_eq] at hnh
        rcases hall with (h1 | h1) | h1
        · exact Or.inl h1
        · exact Or.inr (Or.inl h1)
        · exact absurd h1 hnh

/-- The combined hyphen structure of the last three normalization steps,
for an arbitrary intermediate list `s6`. -/
lemma edges_collapse_drop (s6 : List Char) :
    List.Chain' (fun x y => x ≠ '-' ∨ y ≠ '-')
      (dropEdgeHyphens (collapseRuns (fun c => c == '-') s6)) ∧
    (dropEdgeHyphens (collapseRuns (fun c => c == '-') s6)).head? ≠ some '-' ∧
    (dropEdgeHyphens (collapseRuns (fun c => c == '-') s6)).getLast? ≠ some '-' := by
  have hc7 := chain'_collapseHyphens false s6
  unfold dropEdgeHyphens
  refine ⟨chain'_dropTrailHyphen (chain'_dropLeadHyphen hc7), fun h => ?_, fun h => ?_⟩
  · exact head?_dropLeadHyphen hc7 (head?_dropTrailHyphen h) rfl
  · exact getLast?_dropTrailHyphen (chain'_dropLeadHyphen hc7) h rfl

/-- The hyphen structure of `normalizarTexto`: no two adjacent hyphens and
no hyphen at either end. -/
lemma normalizarTexto_hyphens (texto : String) :
    List.Chain' (fun x y => x ≠ '-' ∨ y ≠ '-') (normalizarTexto texto).data ∧
    (normalizarTexto texto).data.head? ≠ some '-' ∧
    (normalizarTexto texto).data.getLast? ≠ some '-' := by
  unfold normalizarTexto
  split
  · simp
  · exact edges_collapse_drop _

/-- **C2** (counterexample).  For make `"Volkswagen Gol"`, model `"1.0"`,
model-year `"2015 Flex"` the generated URL ends in
`volkswagen-gol/10/2015`, not `volkswagen-gol/1-0/2015`: the dot of
`"1.0"` is outside `[a-z0-9\s-]` and is dropped, not hyphenated. -/
theorem gerarUrlOlx_claim_cex :
    gerarUrlOlx ⟨some "Volkswagen Gol", some "1.0", some "2015 Flex"⟩ =
      some urlTeste ∧
    List.isSuffixOf "volkswagen-gol/1-0/2015".data urlTeste.data = false :=
  ⟨by decide, by decide⟩

/-- **C2** (amended).  The URL built for make `"Volkswagen Gol"`, model
`"1.0"`, model-year `"2015 Flex"` ends in `volkswagen-gol/10/2015` (the
dot of `"1.0"` is dropped, like every character outside `[a-z0-9\s-]`);
the year component is the first whitespace/hyphen-separated token of the
trimmed model-year; and normalization guarantees that only lowercase
letters, digits and hyphens survive, with no repeated and no
leading/trailing hyphens. -/
theorem gerarUrlOlx_spec :
    gerarUrlOlx ⟨some "Volkswagen Gol", some "1.0", some "2015 Flex"⟩ =
      some urlTeste ∧
    List.isSuffixOf "volkswagen-gol/10/2015".data urlTeste.data = true ∧
    yearToken "2015 Flex" = "2015" ∧
    normalizarTexto "Volkswagen Gol" = "volkswagen-gol" ∧
    normalizarTexto "1.0" = "10" ∧
    (∀ texto c, c ∈ (normalizarTexto texto).data →
      ('a' ≤ c ∧ c ≤ 'z') ∨ ('0' ≤ c ∧ c ≤ '9') ∨ c = '-') ∧
    (∀ texto,
      List.Chain' (fun x y => x ≠ '-' ∨ y ≠ '-') (normalizarTexto texto).data ∧
      (normalizarTexto texto).data.head? ≠ some '-' ∧
      (normalizarTexto texto).data.getLast? ≠ some '-') :=
  ⟨by decide, by decide, by decide, by decide, by decide,
    normalizarTexto_chars, normalizarTexto_hyphens⟩

/-- Witness for the quantified parts of `gerarUrlOlx_spec`, at the
accented input `"Citroën C4"`. -/
theorem gerarUrlOlx_spec_witness :
    (('a' ≤ 'c' ∧ 'c' ≤ 'z') ∨ ('0' ≤ 'c' ∧ 'c' ≤ '9') ∨ 'c' = '-') ∧
    (normalizarTexto "Citroën C4").data.head? ≠ some '-' :=
  ⟨gerarUrlOlx_spec.2.2.2.2.2.1 "Citroën C4" 'c' (by decide),
    (gerarUrlOlx_spec.2.2.2.2.2.2 "Citroën C4").2.1⟩

/-- Witness for `consultarPlaca_dadosFipe` on the fixture, where the
sorted list indeed differs from the provider order. -/
theorem consultarPlaca_dadosFipe_witness :
    (∃ v, consultarPlaca "abc1d23" (fun _ => .ok respostaFipe) = .ok v ∧
      v.dadosFipe = some (sortFipe fipeTeste) ∧
      (sortFipe fipeTeste).Perm fipeTeste ∧
      List.Sorted fipeSortRel (sortFipe fipeTeste)) ∧
    sortFipe fipeTeste ≠ fipeTeste :=
  ⟨consultarPlaca_dadosFipe "abc1d23" (fun _ => .ok respostaFipe) respostaFipe
      fipeTeste (by decide) rfl (by decide) rfl (by decide),
    by decide⟩

end ValorReal
